import Mathlib

/-!
Verification development for the mcp-plugin-api crate: a shallow embedding
of the plugin boundary functions (src/macros.rs, src/utils.rs, src/tool.rs,
src/lib.rs) and proofs about them.

Modelling conventions:
* JSON values are modelled by the inductive `Json`; serde_json numbers are
  restricted to integers, which is all this development needs (no claim
  depends on floating-point serialization).
* serde_json maps are modelled as insertion-ordered association lists with
  replace-on-duplicate insertion (`mapInsert`), matching the observable
  behaviour of `serde_json::Map::insert`.
* The two boundary library primitives that the crate delegates to (C-string
  UTF-8 decoding via `CStr::to_str` and JSON parsing via
  `serde_json::from_slice`) enter the embedding as already-computed results:
  an `Option String` tool name (`none` models an invalid-UTF-8 name) and an
  `Except String Json` argument value (`Except.error e` models a parse
  failure whose serde message is `e`).
* FFI out-parameters (`result_buf`, `result_len`) are modelled by the
  `ExecResult` structure: a function that returns an `ExecResult` has
  written both out-parameters on that path.
* A Rust panic (the `expect` in `get_config`) is modelled as `Except.error`
  carrying the panic message; `Except.ok` is a normal return.
* The heap visible to `standard_free_string` is modelled as a list of live
  (address, capacity) allocations; `none` models undefined behaviour
  (freeing something that was never allocated), address 0 models the null
  pointer.
-/

namespace McpPluginApi

/-- JSON value, mirroring `serde_json::Value` (numbers restricted to
integers; objects are insertion-ordered association lists). -/
inductive Json where
  | null : Json
  | bool (b : Bool) : Json
  | num (n : Int) : Json
  | str (s : String) : Json
  | arr (elems : List Json) : Json
  | obj (fields : List (String × Json)) : Json

/-- Lower-case hexadecimal digit, used by the string escaper. -/
def hexDigit (n : Nat) : Char :=
  if n < 10 then Char.ofNat (48 + n) else Char.ofNat (87 + n)

/-- Escape one character the way serde_json's compact serializer does:
quote and backslash get a backslash escape, the named control characters
get their short escapes, the remaining control characters get a
lower-case 4-digit unicode escape, everything else is copied verbatim. -/
def escapeChar (c : Char) : String :=
  if c = '"' then "\\\""
  else if c = '\\' then "\\\\"
  else if c.toNat = 8 then "\\b"
  else if c.toNat = 9 then "\\t"
  else if c.toNat = 10 then "\\n"
  else if c.toNat = 12 then "\\f"
  else if c.toNat = 13 then "\\r"
  else if c.toNat < 32 then
    "\\u00" ++ String.singleton (hexDigit (c.toNat / 16))
      ++ String.singleton (hexDigit (c.toNat % 16))
  else String.singleton c

/-- Serialize a string as a JSON string literal (serde_json compact form). -/
def serializeString (s : String) : String :=
  "\"" ++ String.join (s.toList.map escapeChar) ++ "\""

mutual

/-- Compact JSON serialization, mirroring `serde_json::Value::to_string()`. -/
def serialize : Json → String
  | Json.null => "null"
  | Json.bool true => "true"
  | Json.bool false => "false"
  | Json.num n => toString n
  | Json.str s => serializeString s
  | Json.arr es => "[" ++ serializeElems es ++ "]"
  | Json.obj fs => "\x7b" ++ serializeFields fs ++ "\x7d"

/-- Comma-separated serialization of array elements. -/
def serializeElems : List Json → String
  | [] => ""
  | [e] => serialize e
  | e :: e2 :: es => serialize e ++ "," ++ serializeElems (e2 :: es)

/-- Comma-separated serialization of object fields. -/
def serializeFields : List (String × Json) → String
  | [] => ""
  | [(k, v)] => serializeString k ++ ":" ++ serialize v
  | (k, v) :: f2 :: fs =>
      serializeString k ++ ":" ++ serialize v ++ "," ++ serializeFields (f2 :: fs)

end

/-- The pair of FFI out-parameters written by every return path of the
boundary functions, together with the `i32` return code: `buf` is the byte
content of the result buffer (as a UTF-8 string) and `cap` the capacity
reported through `result_len`. -/
structure ExecResult where
  code : Int
  buf : String
  cap : Nat
deriving Repr

/-- Embeds `utils::prepare_result`: serialize the value to its compact JSON
string, shrink the byte vector to fit (so the reported capacity equals the
UTF-8 byte length), and hand both out-parameters to the caller. -/
def prepare_result (data : Json) : String × Nat :=
  let s := serialize data
  (s, s.utf8ByteSize)

/-- Embeds `utils::return_success`: write the serialized value through the
out-parameters and return code 0. -/
def return_success (data : Json) : ExecResult :=
  let r := prepare_result data
  ⟨0, r.1, r.2⟩

/-- Embeds `utils::return_error`: wrap the message in a single-field
error object, write it through the out-parameters and return code 1. -/
def return_error (error : String) : ExecResult :=
  let error_json := Json.obj [("error", Json.str error)]
  let r := prepare_result error_json
  ⟨1, r.1, r.2⟩

/-- Embeds `tool::ParamType`. -/
inductive ParamType where
  | string
  | integer
  | number
  | boolean
  | object
  | array

/-- Embeds `ParamType::to_json_type`. -/
def ParamType.to_json_type : ParamType → String
  | ParamType.string => "string"
  | ParamType.integer => "integer"
  | ParamType.number => "number"
  | ParamType.boolean => "boolean"
  | ParamType.object => "object"
  | ParamType.array => "array"

/-- Embeds `tool::ToolParam`. -/
structure ToolParam where
  name : String
  description : String
  param_type : ParamType
  required : Bool

/-- Embeds `tool::Tool`: metadata plus the handler function
(`fn(&Value) -> Result<Value, String>`). -/
structure Tool where
  name : String
  description : String
  params : List ToolParam
  handler : Json → Except String Json

/-- Insertion into a serde_json map: replace the value in place when the
key is present, append otherwise. -/
def mapInsert (m : List (String × Json)) (k : String) (v : Json) :
    List (String × Json) :=
  if m.any (fun kv => kv.1 == k) then
    m.map (fun kv => if kv.1 == k then (k, v) else kv)
  else m ++ [(k, v)]

/-- Embeds `Tool::to_json_schema`: the `properties` map is built by
inserting one `{type, description}` object per parameter, the `required`
array collects the names of exactly the parameters whose `required` flag
is set, in parameter order. -/
def Tool.to_json_schema (t : Tool) : Json :=
  let properties := t.params.foldl
    (fun m p => mapInsert m p.name
      (Json.obj [("type", Json.str p.param_type.to_json_type),
                 ("description", Json.str p.description)]))
    []
  let required := (t.params.filter (fun p => p.required)).map
    (fun p => Json.str p.name)
  Json.obj [("name", Json.str t.name),
            ("description", Json.str t.description),
            ("inputSchema", Json.obj [("type", Json.str "object"),
                                      ("properties", Json.obj properties),
                                      ("required", Json.arr required)])]

/-- One `HashMap::insert(tool.name.clone(), tool)` step on the registry,
modelled on an association list: replace in place when the name is already
a key, append otherwise. -/
def insertTool (m : List Tool) (t : Tool) : List Tool :=
  if m.any (fun u => u.name == t.name) then
    m.map (fun u => if u.name == t.name then t else u)
  else m ++ [t]

/-- Embeds the registry construction in `get_tools` generated by
`declare_tools!`: every declared tool is inserted, in declaration order,
into an initially empty name-keyed map. -/
def build_registry (ts : List Tool) : List Tool :=
  ts.foldl insertTool []

/-- `HashMap::get` on the registry model: find the entry whose name equals
the query (exact, case-sensitive string equality). -/
def lookupTool (m : List Tool) (n : String) : Option Tool :=
  m.find? (fun t => t.name == n)

/-- Embeds `generated_list_tools`: map `to_json_schema` over the registry
values, wrap them in a JSON array and return it through `return_success`. -/
def generated_list_tools (ts : List Tool) : ExecResult :=
  return_success (Json.arr ((build_registry ts).map Tool.to_json_schema))

/-- Embeds `generated_execute_tool`. The decoded tool name
(`CStr::from_ptr(..).to_str()`) arrives as `Option String` and the parsed
arguments (`serde_json::from_slice`) as `Except String Json`; both are
library primitives at the boundary. Order of checks mirrors the source:
name decoding, then argument parsing, then registry lookup, then the
handler. -/
def generated_execute_tool (ts : List Tool) (tool_name : Option String)
    (args_json : Except String Json) : ExecResult :=
  match tool_name with
  | none => return_error "Invalid tool name encoding"
  | some name =>
    match args_json with
    | Except.error e => return_error ("Invalid JSON arguments: " ++ e)
    | Except.ok args =>
      match lookupTool (build_registry ts) name with
      | some tool =>
        match tool.handler args with
        | Except.ok result => return_success result
        | Except.error e => return_error e
      | none => return_error ("Unknown tool: " ++ name)

/-- A heap of live allocations, each a (address, capacity) pair. -/
abbrev Heap := List (Nat × Nat)

/-- Deallocation (`Vec::from_raw_parts` followed by drop): removes the
matching live allocation; `none` models the undefined behaviour of freeing
a pair that is not a live allocation. -/
def dealloc (heap : Heap) (ptr cap : Nat) : Option Heap :=
  if (ptr, cap) ∈ heap then some (List.erase heap (ptr, cap)) else none

/-- Embeds `utils::standard_free_string`: deallocate only when the pointer
is non-null (address 0 models null) and the capacity is positive;
otherwise do nothing. -/
def standard_free_string (heap : Heap) (ptr cap : Nat) : Option Heap :=
  if ptr ≠ 0 ∧ 0 < cap then dealloc heap ptr cap else some heap

/-- Embeds the `plugin_configure` function generated by
`declare_plugin_config!`, parameterized by the serde parse of the plugin's
config type (a boundary library primitive). The payload is parsed first
(code 1 on failure, state untouched); then `OnceCell::set` stores it,
failing with code 2 and leaving the stored value untouched when a value is
already present. -/
def plugin_configure {Config : Type} (parse : List Nat → Except String Config)
    (payload : List Nat) (st : Option Config) : Int × Option Config :=
  match parse payload with
  | Except.error _ => (1, st)
  | Except.ok c =>
    match st with
    | some _ => (2, st)
    | none => (0, some c)

/-- Two successive `plugin_configure` calls starting from the unconfigured
state; returns the two return codes. -/
def configure_twice {Config : Type} (parse : List Nat → Except String Config)
    (p1 p2 : List Nat) : Int × Int :=
  let r1 := plugin_configure parse p1 none
  let r2 := plugin_configure parse p2 r1.2
  (r1.1, r2.1)

/-- The configuration cell state after a sequence of `plugin_configure`
calls. -/
def run_configures {Config : Type} (parse : List Nat → Except String Config)
    (ps : List (List Nat)) (st : Option Config) : Option Config :=
  ps.foldl (fun s p => (plugin_configure parse p s).2) st

/-- The panic message of `get_config` (`OnceCell::get(..).expect(..)`). -/
def configUnsetMsg : String :=
  "Plugin not configured - configure() must be called first"

/-- Embeds the generated `get_config`: return the stored configuration, or
panic (modelled as `Except.error` with the `expect` message) when the cell
is unset. -/
def get_config {Config : Type} (st : Option Config) : Except String Config :=
  match st with
  | some c => Except.ok c
  | none => Except.error configUnsetMsg

/-- Embeds the generated `try_get_config`: `OnceCell::get`, no panic. -/
def try_get_config {Config : Type} (st : Option Config) : Option Config :=
  st

/-- A concrete instance of the serde parse primitive, standing in for
`serde_json::from_slice::<u64>` on ASCII byte payloads: a non-empty
all-digit payload parses to the denoted number, anything else is a parse
error. Used only to instantiate `plugin_configure` at concrete inputs. -/
def parseNatConfig (bytes : List Nat) : Except String Nat :=
  if bytes ≠ [] ∧ bytes.all (fun b => decide (48 ≤ b) && decide (b ≤ 57)) then
    Except.ok (bytes.foldl (fun acc b => acc * 10 + (b - 48)) 0)
  else Except.error "invalid number"

/-- Demonstration tool used to instantiate theorems at concrete inputs:
the spec's example tool with an optional string parameter. -/
def demoTool : Tool :=
  { name := "hello", description := "Say hello",
    params := [⟨"name", "Name to greet", ParamType.string, false⟩],
    handler := fun _ => Except.ok (Json.str "hi") }

/-- Second demonstration tool with a distinct name and no parameters. -/
def demoTool2 : Tool :=
  { name := "goodbye", description := "Say goodbye", params := [],
    handler := fun _ => Except.ok (Json.str "bye") }

/-- First of two demonstration tools sharing the name "dup". -/
def demoDupA : Tool :=
  { name := "dup", description := "first", params := [],
    handler := fun _ => Except.ok Json.null }

/-- Second of two demonstration tools sharing the name "dup". -/
def demoDupB : Tool :=
  { name := "dup", description := "second", params := [],
    handler := fun _ => Except.error "boom" }

/-! Registry lemmas: how `insertTool` and `build_registry` interact with
`lookupTool`, name lists and lengths. -/

theorem find?_name_cons (u : Tool) (m : List Tool) (n : String) :
    (u :: m).find? (fun t => t.name == n) =
      if u.name = n then some u else m.find? (fun t => t.name == n) := by
  simp only [List.find?]
  by_cases h : u.name = n
  · have ht : (u.name == n) = true := by simp [h]
    rw [ht, if_pos h]
  · have hf : (u.name == n) = false := by simp [h]
    rw [hf, if_neg h]

theorem find?_replace_ne (m : List Tool) (t : Tool) (n : String)
    (hn : n ≠ t.name) :
    (m.map (fun u => if u.name == t.name then t else u)).find?
      (fun u => u.name == n) = m.find? (fun u => u.name == n) := by
  induction m with
  | nil => rfl
  | cons u m ih =>
    rw [List.map_cons]
    by_cases hu : u.name = t.name
    · have hrepl : (if u.name == t.name then t else u) = t := by simp [hu]
      rw [hrepl, find?_name_cons, find?_name_cons,
        if_neg (fun h => hn h.symm), if_neg (fun h => hn (hu ▸ h).symm)]
      exact ih
    · have hrepl : (if u.name == t.name then t else u) = u := by simp [hu]
      rw [hrepl, find?_name_cons, find?_name_cons]
      by_cases hn' : u.name = n
      · rw [if_pos hn', if_pos hn']
      · rw [if_neg hn', if_neg hn']
        exact ih

theorem find?_replace_self (m : List Tool) (t : Tool)
    (h : m.any (fun u => u.name == t.name) = true) :
    (m.map (fun u => if u.name == t.name then t else u)).find?
      (fun u => u.name == t.name) = some t := by
  induction m with
  | nil => simp at h
  | cons u m ih =>
    rw [List.map_cons]
    by_cases hu : u.name = t.name
    · have hrepl : (if u.name == t.name then t else u) = t := by simp [hu]
      rw [hrepl, find?_name_cons, if_pos rfl]
    · have hrepl : (if u.name == t.name then t else u) = u := by simp [hu]
      have h1 : ¬ (u.name == t.name) = true := by simp [hu]
      have h' : m.any (fun u => u.name == t.name) = true := by
        rcases List.any_eq_true.mp h with ⟨v, hv, hvp⟩
        rcases List.mem_cons.mp hv with rfl | hv'
        · exact absurd hvp h1
        · exact List.any_eq_true.mpr ⟨v, hv', hvp⟩
      rw [hrepl, find?_name_cons, if_neg hu]
      exact ih h'

theorem lookup_insertTool (m : List Tool) (t : Tool) (n : String) :
    lookupTool (insertTool m t) n =
      if n = t.name then some t else lookupTool m n := by
  unfold insertTool lookupTool
  by_cases hany : m.any (fun u => u.name == t.name) = true
  · rw [if_pos hany]
    by_cases hn : n = t.name
    · rw [if_pos hn, hn]
      exact find?_replace_self m t hany
    · rw [if_neg hn]
      exact find?_replace_ne m t n hn
  · rw [if_neg hany, List.find?_append]
    have hanyf : m.any (fun u => u.name == t.name) = false :=
      Bool.not_eq_true _ ▸ eq_false_of_ne_true hany
    by_cases hn : n = t.name
    · subst hn
      have hmnone : m.find? (fun u => u.name == t.name) = none := by
        rw [List.find?_eq_none]
        intro u hu
        exact (List.any_eq_false.mp hanyf) u hu
      rw [hmnone, if_pos rfl, Option.none_or, find?_name_cons, if_pos rfl]
    · rw [if_neg hn, find?_name_cons, if_neg (fun h => hn h.symm)]
      have : ([] : List Tool).find? (fun t => t.name == n) = none := rfl
      rw [this, Option.or_none]

theorem lookup_foldl (ts : List Tool) (n : String) :
    ∀ m : List Tool,
      lookupTool (List.foldl insertTool m ts) n =
        ((ts.reverse.find? (fun t => t.name == n)).or (lookupTool m n)) := by
  induction ts with
  | nil => intro m; simp
  | cons t ts ih =>
    intro m
    rw [List.foldl_cons, ih (insertTool m t), List.reverse_cons, List.find?_append,
      lookup_insertTool]
    cases hf : ts.reverse.find? (fun t => t.name == n) with
    | some u => rfl
    | none =>
      rw [Option.none_or, find?_name_cons]
      by_cases hn : n = t.name
      · rw [if_pos hn, if_pos (hn ▸ rfl : t.name = n)]
        rfl
      · rw [if_neg hn, if_neg (fun h => hn h.symm)]
        simp

theorem lookup_build (ts : List Tool) (n : String) :
    lookupTool (build_registry ts) n =
      ts.reverse.find? (fun t => t.name == n) := by
  have h := lookup_foldl ts n []
  have hnil : lookupTool ([] : List Tool) n = none := rfl
  rw [build_registry, h, hnil, Option.or_none]

theorem names_insertTool (m : List Tool) (t : Tool) :
    (insertTool m t).map Tool.name =
      if m.any (fun u => u.name == t.name) then m.map Tool.name
      else m.map Tool.name ++ [t.name] := by
  unfold insertTool
  by_cases hany : m.any (fun u => u.name == t.name) = true
  · simp only [hany, if_true, List.map_map]
    apply List.map_congr_left
    intro u _
    by_cases hu : u.name = t.name
    · simp [hu]
    · simp [hu]
  · simp only [Bool.not_eq_true] at hany
    simp [hany]

theorem names_nodup_insertTool (m : List Tool) (t : Tool)
    (h : (m.map Tool.name).Nodup) : ((insertTool m t).map Tool.name).Nodup := by
  rw [names_insertTool]
  by_cases hany : m.any (fun u => u.name == t.name) = true
  · simpa [hany] using h
  · simp only [Bool.not_eq_true] at hany
    have hnotin : t.name ∉ m.map Tool.name := by
      intro hmem
      rcases List.mem_map.mp hmem with ⟨u, hu, hname⟩
      have := List.any_eq_false.mp hany u hu
      simp [hname] at this
    simp [hany, List.nodup_append, h, hnotin]

theorem names_nodup_build (ts : List Tool) :
    ((build_registry ts).map Tool.name).Nodup := by
  suffices h : ∀ m : List Tool, (m.map Tool.name).Nodup →
      ((List.foldl insertTool m ts).map Tool.name).Nodup by
    exact h [] (by simp)
  induction ts with
  | nil => intro m hm; simpa using hm
  | cons t ts ih =>
    intro m hm
    rw [List.foldl_cons]
    exact ih (insertTool m t) (names_nodup_insertTool m t hm)

theorem length_insertTool (m : List Tool) (t : Tool) :
    (insertTool m t).length ≤ m.length + 1 := by
  unfold insertTool
  by_cases hany : m.any (fun u => u.name == t.name) = true
  · simp [hany]
  · simp only [Bool.not_eq_true] at hany
    simp [hany]

theorem length_build (ts : List Tool) :
    (build_registry ts).length ≤ ts.length := by
  suffices h : ∀ m : List Tool,
      (List.foldl insertTool m ts).length ≤ m.length + ts.length by
    simpa using h []
  induction ts with
  | nil => intro m; simp
  | cons t ts ih =>
    intro m
    rw [List.foldl_cons]
    calc (List.foldl insertTool (insertTool m t) ts).length
        ≤ (insertTool m t).length + ts.length := ih (insertTool m t)
      _ ≤ (m.length + 1) + ts.length :=
          Nat.add_le_add_right (length_insertTool m t) _
      _ = m.length + (t :: ts).length := by simp [Nat.add_assoc, Nat.add_comm 1]

theorem lookup_self_of_nodup (m : List Tool) (t : Tool)
    (hnd : (m.map Tool.name).Nodup) (hmem : t ∈ m) :
    lookupTool m t.name = some t := by
  induction m with
  | nil => simp at hmem
  | cons u m ih =>
    rcases List.mem_cons.mp hmem with h | h
    · subst h
      simp [lookupTool, List.find?]
    · have hnd' : (m.map Tool.name).Nodup := (List.nodup_cons.mp hnd).2
      have hu : u.name ∉ m.map Tool.name := (List.nodup_cons.mp hnd).1
      have hne : (u.name == t.name) = false := by
        simp only [beq_eq_false_iff_ne, ne_eq]
        intro heq
        exact hu (heq ▸ List.mem_map.mpr ⟨t, h, rfl⟩)
      simpa [lookupTool, List.find?, hne] using ih hnd' h

theorem build_eq_self_of_nodup (ts : List Tool)
    (h : (ts.map Tool.name).Nodup) : build_registry ts = ts := by
  suffices key : ∀ ts m : List Tool, (ts.map Tool.name).Nodup →
      (∀ t ∈ ts, ∀ u ∈ m, t.name ≠ u.name) →
      List.foldl insertTool m ts = m ++ ts by
    simpa using key ts [] h (by simp)
  intro ts
  induction ts with
  | nil => intro m _ _; simp
  | cons t ts ih =>
    intro m hnd hdisj
    have hany : m.any (fun u => u.name == t.name) = false := by
      rw [List.any_eq_false]
      intro u hu
      simp only [beq_iff_eq]
      intro heq
      exact hdisj t (List.mem_cons_self t ts) u hu heq.symm
    have hins : insertTool m t = m ++ [t] := by
      unfold insertTool
      simp [hany]
    rw [List.foldl_cons, hins,
      ih (m ++ [t]) (by simpa using (List.nodup_cons.mp (by simpa using hnd)).2)
        ?_]
    · simp
    · intro t' ht' u hu
      rcases List.mem_append.mp hu with hu | hu
      · exact hdisj t' (List.mem_cons_of_mem t ht') u hu
      · have hut : u = t := by simpa using hu
        intro heq
        have heq' : t'.name = t.name := by rw [heq, hut]
        have htname : t.name ∉ ts.map Tool.name :=
          (List.nodup_cons.mp (by simpa using hnd)).1
        exact htname (heq' ▸ List.mem_map.mpr ⟨t', ht', rfl⟩)

/-! Configuration-cell lemmas. -/

theorem configure_snd_some {Config : Type}
    (parse : List Nat → Except String Config) (p : List Nat) (c : Config) :
    (plugin_configure parse p (some c)).2 = some c := by
  unfold plugin_configure
  cases parse p <;> rfl

theorem run_configures_some {Config : Type}
    (parse : List Nat → Except String Config) (ps : List (List Nat))
    (c : Config) : run_configures parse ps (some c) = some c := by
  induction ps with
  | nil => rfl
  | cons p ps ih =>
    show run_configures parse ps (plugin_configure parse p (some c)).2 = some c
    rw [configure_snd_some]
    exact ih

theorem run_configures_none_of_fail {Config : Type}
    (parse : List Nat → Except String Config) (ps : List (List Nat))
    (h : ∀ p ∈ ps, ∃ e, parse p = Except.error e) :
    run_configures parse ps none = none := by
  induction ps with
  | nil => rfl
  | cons p ps ih =>
    rcases h p (List.mem_cons_self p ps) with ⟨e, he⟩
    show run_configures parse ps (plugin_configure parse p none).2 = none
    have hstep : (plugin_configure parse p none).2 = none := by
      unfold plugin_configure
      rw [he]
    rw [hstep]
    exact ih (fun q hq => h q (List.mem_cons_of_mem p hq))

/-- Equation lemma: on a decoded name and parsed arguments, a registry
miss reduces `generated_execute_tool` to the unknown-tool error. -/
theorem execute_eq_of_lookup_none (ts : List Tool) (name : String)
    (args : Json) (h : lookupTool (build_registry ts) name = none) :
    generated_execute_tool ts (some name) (Except.ok args) =
      return_error ("Unknown tool: " ++ name) := by
  have hmain : generated_execute_tool ts (some name) (Except.ok args) =
      match lookupTool (build_registry ts) name with
      | some tool =>
        match tool.handler args with
        | Except.ok result => return_success result
        | Except.error e => return_error e
      | none => return_error ("Unknown tool: " ++ name) := rfl
  rw [hmain, h]

/-- Equation lemma: on a decoded name and parsed arguments, a registry hit
reduces `generated_execute_tool` to the handler dispatch. -/
theorem execute_eq_of_lookup_some (ts : List Tool) (name : String)
    (args : Json) (tool : Tool)
    (h : lookupTool (build_registry ts) name = some tool) :
    generated_execute_tool ts (some name) (Except.ok args) =
      match tool.handler args with
      | Except.ok result => return_success result
      | Except.error e => return_error e := by
  have hmain : generated_execute_tool ts (some name) (Except.ok args) =
      match lookupTool (build_registry ts) name with
      | some tool =>
        match tool.handler args with
        | Except.ok result => return_success result
        | Except.error e => return_error e
      | none => return_error ("Unknown tool: " ++ name) := rfl
  rw [hmain, h]

/-! Claim theorems. -/

/-- C1: for every registered tool whose handler returns `Ok(value)` on the
parsed JSON arguments, `generated_execute_tool` returns code 0 and writes a
result body byte-for-byte equal to the compact serialization of that JSON
value (and a capacity equal to its UTF-8 byte length, after shrink-to-fit). -/
theorem execute_tool_handler_ok (ts : List Tool) (name : String) (args : Json)
    (tool : Tool) (value : Json)
    (hlook : lookupTool (build_registry ts) name = some tool)
    (hrun : tool.handler args = Except.ok value) :
    generated_execute_tool ts (some name) (Except.ok args) =
      ⟨0, serialize value, (serialize value).utf8ByteSize⟩ := by
  rw [execute_eq_of_lookup_some ts name args tool hlook, hrun]
  rfl

/-- Witness for C1: the demonstration tool "hello" is registered, its
handler succeeds on `null` arguments, and `generated_execute_tool` returns
code 0 with exactly the handler value's serialization as the body. -/
theorem execute_tool_handler_ok_witness :
    lookupTool (build_registry [demoTool]) "hello" = some demoTool
    ∧ demoTool.handler Json.null = Except.ok (Json.str "hi")
    ∧ generated_execute_tool [demoTool] (some "hello") (Except.ok Json.null) =
        ⟨0, serialize (Json.str "hi"), (serialize (Json.str "hi")).utf8ByteSize⟩ :=
  ⟨rfl, rfl,
    execute_tool_handler_ok [demoTool] "hello" Json.null demoTool
      (Json.str "hi") rfl rfl⟩

/-- C2: for every tool name that matches no registered tool (lookup is
exact, case-sensitive string equality), `generated_execute_tool` returns
code 1 and a body that is exactly the serialized envelope
`\x7b"error": "Unknown tool: <name>"\x7d`; the miss branch invokes no
handler. -/
theorem execute_tool_unknown (ts : List Tool) (name : String) (args : Json)
    (h : lookupTool (build_registry ts) name = none) :
    generated_execute_tool ts (some name) (Except.ok args) =
      ⟨1,
       serialize (Json.obj [("error", Json.str ("Unknown tool: " ++ name))]),
       (serialize
         (Json.obj [("error", Json.str ("Unknown tool: " ++ name))])).utf8ByteSize⟩ := by
  rw [execute_eq_of_lookup_none ts name args h]
  rfl

/-- Witness for C2: with an empty registry the name "nope" misses, the
return code is 1 and the body is the literal error envelope. -/
theorem execute_tool_unknown_witness :
    lookupTool (build_registry []) "nope" = none
    ∧ generated_execute_tool [] (some "nope") (Except.ok Json.null) =
        ⟨1,
         serialize (Json.obj [("error", Json.str ("Unknown tool: " ++ "nope"))]),
         (serialize
           (Json.obj [("error", Json.str ("Unknown tool: " ++ "nope"))])).utf8ByteSize⟩
    ∧ (generated_execute_tool [] (some "nope") (Except.ok Json.null)).buf =
        "\x7b\"error\":\"Unknown tool: nope\"\x7d" :=
  ⟨rfl, execute_tool_unknown [] "nope" Json.null rfl, by decide⟩

/-- C6: when the tool-name string is not valid UTF-8 (modelled by `none`)
or the argument bytes are not valid JSON (modelled by `Except.error`),
`generated_execute_tool` returns code 1 with a structured error envelope,
and the result is independent of the registry: the error is produced
before any lookup, so no lookup result is used and no handler runs, and
the call returns normally rather than crashing. -/
theorem execute_tool_boundary_errors (ts : List Tool)
    (tool_name : Option String) (args_json : Except String Json)
    (h : tool_name = none ∨ ∃ e, args_json = Except.error e) :
    (generated_execute_tool ts tool_name args_json).code = 1
    ∧ (∃ msg, generated_execute_tool ts tool_name args_json = return_error msg)
    ∧ generated_execute_tool ts tool_name args_json =
        generated_execute_tool [] tool_name args_json := by
  rcases h with h | ⟨e, h⟩
  · subst h
    exact ⟨rfl, ⟨"Invalid tool name encoding", rfl⟩, rfl⟩
  · subst h
    cases tool_name with
    | none => exact ⟨rfl, ⟨"Invalid tool name encoding", rfl⟩, rfl⟩
    | some name => exact ⟨rfl, ⟨"Invalid JSON arguments: " ++ e, rfl⟩, rfl⟩

/-- Witness for C6: an invalid-UTF-8 tool name against a nonempty registry
yields code 1, an error envelope, and the same result as with the empty
registry. -/
theorem execute_tool_boundary_errors_witness :
    (generated_execute_tool [demoTool] none (Except.ok Json.null)).code = 1
    ∧ (∃ msg, generated_execute_tool [demoTool] none (Except.ok Json.null) =
        return_error msg)
    ∧ generated_execute_tool [demoTool] none (Except.ok Json.null) =
        generated_execute_tool [] none (Except.ok Json.null) :=
  execute_tool_boundary_errors [demoTool] none (Except.ok Json.null)
    (Or.inl rfl)

/-- C9: on every input, `generated_execute_tool` returns exactly code 0 or
code 1, and every return path writes both out-parameters: the buffer holds
the serialization of some JSON value and the reported capacity is its
UTF-8 byte length. -/
theorem execute_tool_total (ts : List Tool) (tool_name : Option String)
    (args_json : Except String Json) :
    ((generated_execute_tool ts tool_name args_json).code = 0
      ∨ (generated_execute_tool ts tool_name args_json).code = 1)
    ∧ ∃ j : Json,
        (generated_execute_tool ts tool_name args_json).buf = serialize j
        ∧ (generated_execute_tool ts tool_name args_json).cap =
            (serialize j).utf8ByteSize := by
  cases tool_name with
  | none =>
    exact ⟨Or.inr rfl,
      ⟨Json.obj [("error", Json.str "Invalid tool name encoding")], rfl, rfl⟩⟩
  | some name =>
    cases args_json with
    | error e =>
      exact ⟨Or.inr rfl,
        ⟨Json.obj [("error", Json.str ("Invalid JSON arguments: " ++ e))],
         rfl, rfl⟩⟩
    | ok args =>
      cases hl : lookupTool (build_registry ts) name with
      | none =>
        rw [execute_eq_of_lookup_none ts name args hl]
        exact ⟨Or.inr rfl,
          ⟨Json.obj [("error", Json.str ("Unknown tool: " ++ name))], rfl, rfl⟩⟩
      | some tool =>
        rw [execute_eq_of_lookup_some ts name args tool hl]
        cases hr : tool.handler args with
        | ok result => exact ⟨Or.inl rfl, ⟨result, rfl, rfl⟩⟩
        | error e =>
          exact ⟨Or.inr rfl, ⟨Json.obj [("error", Json.str e)], rfl, rfl⟩⟩

/-- C3 counterexample: the claim "first call returns 0 and second returns
2 regardless of payload content" fails at a concrete input: with a numeric
config type, a first payload "x" (byte 120) that is not valid JSON makes
the first call return 1 (parse failure), after which a second, valid
payload "1" (byte 49) returns 0 -- not (0, 2). -/
theorem configure_twice_counterexample :
    configure_twice parseNatConfig [120] [49] = (1, 0)
    ∧ configure_twice parseNatConfig [120] [49] ≠ ((0 : Int), (2 : Int)) := by
  constructor
  · rfl
  · decide

/-- C3 (amended): calling configure twice where both payloads parse
successfully returns code 0 on the first call and code 2 on the second. -/
theorem configure_twice_codes {Config : Type}
    (parse : List Nat → Except String Config) (p1 p2 : List Nat)
    (c1 c2 : Config) (h1 : parse p1 = Except.ok c1)
    (h2 : parse p2 = Except.ok c2) :
    configure_twice parse p1 p2 = (0, 2) := by
  have hfst : plugin_configure parse p1 none = (0, some c1) := by
    unfold plugin_configure
    rw [h1]
  have hsnd : plugin_configure parse p2 (some c1) = (2, some c1) := by
    unfold plugin_configure
    rw [h2]
  show ((plugin_configure parse p1 none).1,
    (plugin_configure parse p2 (plugin_configure parse p1 none).2).1) = (0, 2)
  rw [hfst]
  show ((0 : Int), (plugin_configure parse p2 (some c1)).1) = (0, 2)
  rw [hsnd]

/-- Witness for the amended C3: payloads "1" and "2" both parse, the two
calls return codes 0 and 2. -/
theorem configure_twice_codes_witness :
    parseNatConfig [49] = Except.ok 1
    ∧ parseNatConfig [50] = Except.ok 2
    ∧ configure_twice parseNatConfig [49] [50] = (0, 2) :=
  ⟨rfl, rfl, configure_twice_codes parseNatConfig [49] [50] 1 2 rfl rfl⟩

/-- C4: after a sequence of configure calls whose first call parsed and
stored its payload, every later read observes the first payload's parsed
value (both through `try_get_config` and `get_config`), and any further
write attempt leaves the stored value unchanged. -/
theorem config_set_once {Config : Type}
    (parse : List Nat → Except String Config) (p1 : List Nat)
    (rest : List (List Nat)) (c : Config) (h : parse p1 = Except.ok c) :
    run_configures parse (p1 :: rest) none = some c
    ∧ try_get_config (run_configures parse (p1 :: rest) none) = some c
    ∧ get_config (run_configures parse (p1 :: rest) none) = Except.ok c
    ∧ ∀ p, (plugin_configure parse p (some c)).2 = some c := by
  have hfirst : (plugin_configure parse p1 (none : Option Config)).2 = some c := by
    unfold plugin_configure
    rw [h]
  have hrun : run_configures parse (p1 :: rest) none = some c := by
    show run_configures parse rest (plugin_configure parse p1 none).2 = some c
    rw [hfirst]
    exact run_configures_some parse rest c
  refine ⟨hrun, ?_, ?_, ?_⟩
  · rw [hrun]
    rfl
  · rw [hrun]
    rfl
  · intro p
    exact configure_snd_some parse p c

/-- Witness for C4: a valid first payload "1" followed by payloads "2" and
"x"; all reads observe the value 1 and further writes keep it. -/
theorem config_set_once_witness :
    parseNatConfig [49] = Except.ok 1
    ∧ run_configures parseNatConfig [[49], [50], [120]] none = some 1
    ∧ get_config (run_configures parseNatConfig [[49], [50], [120]] none) =
        Except.ok 1 :=
  ⟨rfl, (config_set_once parseNatConfig [49] [[50], [120]] 1 rfl).1,
    (config_set_once parseNatConfig [49] [[50], [120]] 1 rfl).2.2.1⟩

/-- C7: the deallocation entry point treats a null address (0) with zero
capacity as a no-op on any heap: nothing is deallocated and the call does
not fail. -/
theorem free_null_noop (heap : Heap) :
    standard_free_string heap 0 0 = some heap := by
  unfold standard_free_string
  simp

/-- C8: reading the configuration before any configure call has
successfully run is the fatal `expect` panic (modelled as `Except.error`
with the panic message), while after a successful configure `get_config`
returns the stored configuration without panicking. -/
theorem get_config_lifecycle {Config : Type}
    (parse : List Nat → Except String Config) (ps : List (List Nat)) :
    ((∀ p ∈ ps, ∃ e, parse p = Except.error e) →
      get_config (run_configures parse ps none) =
        Except.error configUnsetMsg)
    ∧ (∀ c : Config, run_configures parse ps none = some c →
      get_config (run_configures parse ps none) = Except.ok c) := by
  constructor
  · intro h
    rw [run_configures_none_of_fail parse ps h]
    rfl
  · intro c hc
    rw [hc]
    rfl

/-- Witness for C8: with only the unparsable payload "x" the read panics
with the expect message; after the valid payload "1" it returns the value. -/
theorem get_config_lifecycle_witness :
    get_config (run_configures parseNatConfig [[120]] none) =
      Except.error configUnsetMsg
    ∧ get_config (run_configures parseNatConfig [[49]] none) =
        Except.ok 1 :=
  ⟨(get_config_lifecycle parseNatConfig [[120]]).1
      (by
        intro p hp
        have hp' : p = [120] := by simpa using hp
        exact ⟨"invalid number", by rw [hp']; rfl⟩),
    (get_config_lifecycle parseNatConfig [[49]]).2 1 rfl⟩

/-- C5: for every registration with pairwise-distinct names,
`generated_list_tools` returns exactly one descriptor per registered tool
(the descriptor list has one entry per tool and no duplicates), and every
descriptor has the shape name/description/inputSchema with
`inputSchema.type = "object"`, a properties map, and a required array
holding exactly the names of the parameters whose required flag was set. -/
theorem list_tools_descriptors (ts : List Tool)
    (h : (ts.map Tool.name).Nodup) :
    generated_list_tools ts =
      return_success (Json.arr (ts.map Tool.to_json_schema))
    ∧ (ts.map Tool.to_json_schema).Nodup
    ∧ ∀ t ∈ ts, Tool.to_json_schema t =
        Json.obj [("name", Json.str t.name),
                  ("description", Json.str t.description),
                  ("inputSchema", Json.obj
                    [("type", Json.str "object"),
                     ("properties", Json.obj (t.params.foldl
                       (fun m p => mapInsert m p.name
                         (Json.obj [("type",
                                     Json.str p.param_type.to_json_type),
                                    ("description",
                                     Json.str p.description)]))
                       [])),
                     ("required", Json.arr
                       ((t.params.filter (fun p => p.required)).map
                         (fun p => Json.str p.name)))])] := by
  refine ⟨?_, ?_, ?_⟩
  · unfold generated_list_tools
    rw [build_eq_self_of_nodup ts h]
  · have hinj : ∀ x ∈ ts, ∀ y ∈ ts,
        Tool.to_json_schema x = Tool.to_json_schema y → x = y := by
      intro x hx y hy hxy
      have hname : x.name = y.name := by
        simp only [Tool.to_json_schema, Json.obj.injEq, List.cons.injEq,
          Prod.mk.injEq, Json.str.injEq, true_and] at hxy
        exact hxy.1
      exact List.inj_on_of_nodup_map h hx hy hname
    exact List.Nodup.map_on hinj (List.Nodup.of_map Tool.name h)
  · intro t ht
    rfl

/-- Witness for C5: two distinctly named demonstration tools; the listing
is exactly their two descriptors. -/
theorem list_tools_descriptors_witness :
    ([demoTool, demoTool2].map Tool.name).Nodup
    ∧ generated_list_tools [demoTool, demoTool2] =
        return_success
          (Json.arr ([demoTool, demoTool2].map Tool.to_json_schema)) := by
  have h : ([demoTool, demoTool2].map Tool.name).Nodup := by
    simp [demoTool, demoTool2]
  exact ⟨h, (list_tools_descriptors [demoTool, demoTool2] h).1⟩

/-- C10: duplicate declared names resolve to the later declaration: lookup
on the built registry returns the last declared tool of that name, the
registry's names are duplicate-free (at most one tool per name), its size
never exceeds the number of declarations, and each registered tool is
found under its own name (so a replaced earlier duplicate is neither
invocable nor listed). The final conjuncts exhibit the strict case: two
tools named "dup" build a one-entry registry mapping "dup" to the
later-declared tool. -/
theorem registry_last_wins (ts : List Tool) (n : String) :
    lookupTool (build_registry ts) n =
      ts.reverse.find? (fun t => t.name == n)
    ∧ ((build_registry ts).map Tool.name).Nodup
    ∧ (build_registry ts).length ≤ ts.length
    ∧ (∀ t ∈ build_registry ts,
        lookupTool (build_registry ts) t.name = some t)
    ∧ lookupTool (build_registry [demoDupA, demoDupB]) "dup" = some demoDupB
    ∧ (build_registry [demoDupA, demoDupB]).length <
        [demoDupA, demoDupB].length := by
  refine ⟨lookup_build ts n, names_nodup_build ts, length_build ts, ?_,
    rfl, by decide⟩
  intro t ht
  exact lookup_self_of_nodup (build_registry ts) t (names_nodup_build ts) ht

/-- Witness for C10: instantiated at the duplicate-name registration, the
registry maps "dup" to the later-declared tool and is strictly smaller
than the declaration list. -/
theorem registry_last_wins_witness :
    lookupTool (build_registry [demoDupA, demoDupB]) "dup" = some demoDupB
    ∧ (build_registry [demoDupA, demoDupB]).length <
        [demoDupA, demoDupB].length :=
  ⟨(registry_last_wins [demoDupA, demoDupB] "dup").2.2.2.2.1,
    (registry_last_wins [demoDupA, demoDupB] "dup").2.2.2.2.2⟩

end McpPluginApi
